import Mathlib

/-!
Verification of the deploy command of the Outsmartly CLI
(packages/cli/src/commands/deploy.ts).

The TypeScript source is shallowly embedded. External collaborators
(the real filesystem, the JSON parser, the rollup bundling engine, the
Node.js path library, terminal color formatting) are modelled either as
explicit data (a finite filesystem value) or as oracle functions passed
as parameters. JavaScript string quirks that the code relies on
(String.prototype.slice with a negative index, falsy checks on strings,
template interpolation of undefined) are modelled explicitly and noted
at the definition that uses them.
-/

namespace DeployCmd

/-! ## Character-list string helpers (models of JS string primitives) -/

/-- Does the character list start with the pattern? (models String.prototype.startsWith). -/
def listStarts : List Char → List Char → Bool
  | _, [] => true
  | [], _ :: _ => false
  | a :: as, b :: bs => a = b && listStarts as bs

/-- String starts-with, via character lists. -/
def strStarts (s pat : String) : Bool := listStarts s.toList pat.toList

/-- String ends-with, via reversed character lists (models String.prototype.endsWith). -/
def strEnds (s pat : String) : Bool := listStarts s.toList.reverse pat.toList.reverse

/-- Does the character list contain the pattern as a contiguous sublist? -/
def listHasSub : List Char → List Char → Bool
  | [], pat => pat.isEmpty
  | c :: rest, pat => listStarts (c :: rest) pat || listHasSub rest pat

/-- Substring containment (models String.prototype.includes). -/
def containsSub (s pat : String) : Bool := listHasSub s.toList pat.toList

/-- Index of the last occurrence of a character, if any
(models String.prototype.lastIndexOf returning -1 as none). -/
def lastIdxOf (c : Char) : List Char → Option Nat
  | [] => none
  | x :: xs =>
    match lastIdxOf c xs with
    | some i => some (i + 1)
    | none => if x = c then some 0 else none

/-! ## Node path library model (POSIX-style)

path.join, path.dirname, path.parse and the composition
path.relative(process.cwd(), path.resolve(...)) from the source are
modelled on '/'-separated segments. Windows separators are out of scope:
every path the command manipulates in the claims is POSIX-style. -/

/-- Split a string at '/' separators. -/
def splitSegsAux : List Char → List Char → List String
  | [], cur => [String.mk cur.reverse]
  | c :: cs, cur =>
    if c = '/' then String.mk cur.reverse :: splitSegsAux cs []
    else splitSegsAux cs (c :: cur)

/-- Path segments of a string. -/
def splitPath (s : String) : List String := splitSegsAux s.toList []

/-- Normalize segments the way the Node path library does: drop empty and
"." segments and cancel ".." against a preceding real segment. -/
def normSegs (segs : List String) : List String :=
  segs.foldl
    (fun acc s =>
      if s = "" || s = "." then acc
      else if s = ".." then
        match acc.getLast? with
        | some l => if l = ".." then acc ++ [".."] else acc.dropLast
        | none => acc ++ [".."]
      else acc ++ [s])
    []

/-- Join segments with '/'. -/
def joinSegs : List String → String
  | [] => ""
  | [s] => s
  | s :: rest => s ++ "/" ++ joinSegs rest

/-- Model of path.join(a, b). -/
def pathJoin (a b : String) : String := joinSegs (normSegs (splitPath a ++ splitPath b))

/-- Model of path.dirname for relative paths: all but the last segment, or ".". -/
def dirname (p : String) : String :=
  match (splitPath p).dropLast with
  | [] => "."
  | segs => joinSegs segs

/-- Model of path.parse(p).name: the last segment without its extension
(a leading dot alone does not count as an extension separator). -/
def parseName (p : String) : String :=
  let base := (splitPath p).getLastD ""
  match lastIdxOf '.' base.toList with
  | some i => if i = 0 then base else String.mk (base.toList.take i)
  | none => base

/-- Segments of a path made relative to a base: drop the common prefix, then
one ".." per remaining base segment followed by the remaining target segments
(models path.relative on already-normalized absolute segment lists). -/
def relSegs : List String → List String → List String
  | [], target => target
  | b :: bs, [] => (List.replicate (b :: bs).length "..")
  | b :: bs, t :: ts =>
    if b = t then relSegs bs ts
    else List.replicate (b :: bs).length ".." ++ (t :: ts)

/-- Model of the composite path.relative(process.cwd(),
path.resolve(path.dirname(importer), id)) from the resolveId plugin hook,
with the working directory passed explicitly. The importer is a
cwd-relative virtual-filesystem path; an absolute id resolves on its own. -/
def resolveImport (cwd imp id : String) : String :=
  let base := normSegs (splitPath cwd)
  let absTarget :=
    if strStarts id "/" then normSegs (splitPath id)
    else normSegs (splitPath cwd ++ splitPath (dirname imp) ++ splitPath id)
  joinSegs (relSegs base absTarget)

/-- Model of the regex test /^[/.]/ applied to a module specifier. -/
def startsDotOrSlash (id : String) : Bool :=
  match id.toList with
  | [] => false
  | c :: _ => c = '/' || c = '.'

/-! ## Association lists (models of plain JS objects used as string maps) -/

/-- Key membership (models the JS "in" operator). -/
def alHas {α : Type} (l : List (String × α)) (k : String) : Bool :=
  l.any (fun kv => kv.1 = k)

/-- Key assignment (models obj[k] = v: overwrite in place, or append). -/
def alSet {α : Type} (l : List (String × α)) (k : String) (v : α) : List (String × α) :=
  if alHas l k then l.map (fun kv => if kv.1 = k then (k, v) else kv)
  else l ++ [(k, v)]

/-! ## Filesystem model (fs-extra oracle) -/

/-- A snapshot of the parts of the disk the command reads: a set of
directories and a set of files with contents. -/
structure FS where
  dirs : List String
  files : List (String × String)
  deriving DecidableEq

/-- Models fs.existsSync. -/
def FS.existsPath (fs : FS) (p : String) : Bool :=
  fs.dirs.contains p || fs.files.any (fun kv => kv.1 = p)

/-- The name of q when it is a direct child of dir, if it is one. -/
def childName (dir q : String) : Option String :=
  let pre := dir ++ "/"
  if strStarts q pre then
    let rest := String.mk (q.toList.drop pre.toList.length)
    if rest ≠ "" && rest.toList.all (fun c => c ≠ '/') then some rest else none
  else none

/-- Models fs.readdirSync: the names of the direct children of a directory,
or a thrown ENOENT error when the directory does not exist. -/
def FS.readdir (fs : FS) (p : String) : Except String (List String) :=
  if fs.dirs.contains p then
    .ok ((fs.files.map Prod.fst ++ fs.dirs).filterMap (childName p))
  else .error ("ENOENT: no such file or directory, scandir " ++ p)

/-- Models fs.readFileSync, throwing when the path is not a file. -/
def FS.readFile (fs : FS) (p : String) : Except String String :=
  match fs.files.find? (fun kv => kv.1 = p) with
  | some kv => .ok kv.2
  | none => .error ("ENOENT: no such file or directory, open " ++ p)

/-! ## Rollup warning triage (deploy.ts lines 34-55 and 415-436) and
handleRollupError (lines 108-136)

Both rollup invocations install the same onwarn handler, so it is embedded
once. Terminal output is modelled as the list of console.error lines
(chalk color formatting is the identity on the text); process.exit(1) is
modelled as a Boolean exit flag. -/

/-- Source location attached to a rollup diagnostic. -/
structure Loc where
  file : Option String
  line : Nat
  column : Nat
  deriving DecidableEq

/-- A rollup warning/error object, with the fields the handler reads.
Absent (undefined) fields are none. -/
structure RWarning where
  code : Option String
  message : String
  name : Option String
  plugin : Option String
  url : Option String
  loc : Option Loc
  id : Option String
  frame : Option String
  source : Option String
  importer : Option String
  deriving DecidableEq

/-- JS template interpolation of a possibly-undefined string. -/
def jsStr (o : Option String) : String := o.getD "undefined"

/-- Model of handleRollupError (deploy.ts lines 108-136). Returns the
console.error lines and whether process.exit(1) is reached. The relativeId
helper (which consults process.cwd via the path library) is an oracle rel;
an empty message falls back to stringifying the error object, as
(err.message || err) does in JS. -/
def handleRollupError (rel : String → String) (err : RWarning) (fatal : Bool) :
    List String × Bool :=
  let description := if err.message = "" then "[object Object]" else err.message
  let description :=
    match err.name with
    | some n => n ++ ": " ++ description
    | none => description
  let message :=
    match err.plugin with
    | some p => "(plugin " ++ p ++ ") " ++ description
    | none => description
  let out := ["[!] " ++ message]
  let out := out ++ (match err.url with | some u => [u] | none => [])
  let out := out ++
    (match err.loc with
     | some loc =>
       [rel (match loc.file with | some f => f | none => jsStr err.id) ++
         " (" ++ toString loc.line ++ ":" ++ toString loc.column ++ ")"]
     | none => match err.id with | some i => [rel i] | none => [])
  let out := out ++ (match err.frame with | some f => [f] | none => [])
  (out ++ [""], fatal)

/-- What the onwarn switch decides to do with a warning. -/
inductive Triage
  | suppress
  | fatalW (w : RWarning)
  | logW (w : RWarning)
  deriving DecidableEq

/-- The rewritten message installed on an UNRESOLVED_IMPORT warning
(deploy.ts line 48): it interpolates the unresolved source and the
importer path. -/
def unresolvedMessage (w : RWarning) : String :=
  "'" ++ jsStr w.source ++ "' is imported by " ++ jsStr w.importer ++
    ", but could not be resolved"

/-- The prefixed message installed on every other warning
(deploy.ts line 53). -/
def bundlerWarningMessage (w : RWarning) : String :=
  "Rollup Bundler Warning: " ++ w.message

/-- The switch statement of the onwarn handler (deploy.ts lines 35-54):
dependency cycles and loose-this warnings return immediately;
NON_EXISTENT_EXPORT is escalated as-is; UNRESOLVED_IMPORT is escalated
with a rewritten message naming source and importer; everything else is
logged with the bundler-warning prefix. -/
def onwarnTriage (w : RWarning) : Triage :=
  if w.code = some "CIRCULAR_DEPENDENCY" || w.code = some "THIS_IS_UNDEFINED" then
    .suppress
  else if w.code = some "NON_EXISTENT_EXPORT" then
    .fatalW w
  else if w.code = some "UNRESOLVED_IMPORT" then
    .fatalW ({ w with message := unresolvedMessage w })
  else
    .logW ({ w with message := bundlerWarningMessage w })

/-- The full onwarn handler: triage, then handleRollupError with the
matching fatality. Returns terminal output lines and the exit flag. -/
def onwarn (rel : String → String) (w : RWarning) : List String × Bool :=
  match onwarnTriage w with
  | .suppress => ([], false)
  | .fatalW w2 => handleRollupError rel w2 true
  | .logW w2 => handleRollupError rel w2 false

/-! ## Sandboxed config evaluation (deploy.ts lines 503-514)

The vm execution of the compiled chunk is external; what the orchestrator
does with the resulting default export object is embedded: destructure
host and tmpDir (with the './.outsmartly/' default applying only when
tmpDir is undefined) and reject a falsy host. For a string-valued host
the JS falsy values are undefined and the empty string, so an absent
field and an empty field are both modelled as the empty string after
destructuring. -/

/-- The default export object of the evaluated configuration chunk. -/
structure ConfigExport where
  host : Option String
  tmpDir : Option String
  deriving DecidableEq

/-- Extraction of deployment settings from the evaluated default export. -/
def evaluateConfig (d : ConfigExport) (configPath : String) :
    Except String (String × String) :=
  let host := d.host.getD ""
  let tmpDir := d.tmpDir.getD "./.outsmartly/"
  if host = "" then .error ("Missing 'host' field in " ++ configPath)
  else .ok (host, tmpDir)

/-! ## Virtual-filesystem module resolution
(the custom-outsmartly-virtual plugin, deploy.ts lines 351-387) -/

/-- The ordered list of supported extensions (deploy.ts line 25). -/
def SUPPORTED_EXTENSIONS : List String :=
  [".js", ".jsx", ".mjs", ".mjsx", ".cjs", ".cjsx", ".ts", ".tsx"]

/-- The three probes the loop body tries for one extension, in order:
bare path + ext, path/index.ext, path/(basename of the specifier).ext. -/
def probeTriple (resolved name ext : String) : List String :=
  [resolved ++ ext, pathJoin resolved ("index" ++ ext), pathJoin resolved (name ++ ext)]

/-- The for-loop over SUPPORTED_EXTENSIONS in resolveId
(deploy.ts lines 366-380). -/
def resolveLoop (vfs : List (String × String)) (resolved name : String) :
    List String → Option String
  | [] => none
  | ext :: rest =>
    if alHas vfs (resolved ++ ext) then some (resolved ++ ext)
    else if alHas vfs (pathJoin resolved ("index" ++ ext)) then
      some (pathJoin resolved ("index" ++ ext))
    else if alHas vfs (pathJoin resolved (name ++ ext)) then
      some (pathJoin resolved (name ++ ext))
    else resolveLoop vfs resolved name rest

/-- Model of the resolveId hook (deploy.ts lines 353-382): exact key match
first; then, for a relative/absolute specifier with an importer, the
importer-resolved path and the per-extension probes; none means rollup
falls through to the remaining plugins (real filesystem resolution). -/
def resolveId (cwd : String) (vfs : List (String × String)) (id : String)
    (importer : Option String) : Option String :=
  if alHas vfs id then some id
  else
    match importer with
    | some imp =>
      if startsDotOrSlash id then
        let name := parseName id
        let resolved := resolveImport cwd imp id
        if alHas vfs resolved then some resolved
        else resolveLoop vfs resolved name SUPPORTED_EXTENSIONS
      else none
    | none => none

/-- Modelled from the spec: the probe order as the specification words it —
the bare path with each supported extension for all extensions first, then
path/index.ext for all extensions, then path/(basename).ext for all
extensions. Used only to compare against the resolution the source
implements. -/
def specResolveId (cwd : String) (vfs : List (String × String)) (id : String)
    (importer : Option String) : Option String :=
  if alHas vfs id then some id
  else
    match importer with
    | some imp =>
      if startsDotOrSlash id then
        let name := parseName id
        let r := resolveImport cwd imp id
        ((r :: SUPPORTED_EXTENSIONS.map (fun e => r ++ e)) ++
          SUPPORTED_EXTENSIONS.map (fun e => pathJoin r ("index" ++ e)) ++
          SUPPORTED_EXTENSIONS.map (fun e => pathJoin r (name ++ e))).find?
          (fun q => alHas vfs q)
      else none
    | none => none

/-! ## Analysis assembly: bundleAnalysis (deploy.ts lines 280-482)

The JSON parser and the rollup bundling engine are oracles (parseJson and
gen parameters). Everything inside the try block that fails is caught at
lines 478-481: the original error is printed with console.error and a
single generic error naming tmpDir is thrown instead. -/

/-- The fields the code destructures from a parsed component descriptor. -/
structure ComponentDesc where
  scope : String
  filename : String
  moduleThunkRaw : String
  deriving DecidableEq

/-- A component record as stored for upload: moduleThunkRaw is cleared
(set to null) since the compiled output in the vfs supersedes it. -/
structure StoredComponent where
  scope : String
  filename : String
  moduleThunkRaw : Option String
  deriving DecidableEq

/-- One entry of the rollup generate() output. An asset whose source is
not a string is modelled with none; a hypothetical entry of any other
type is modelled by other. -/
inductive OutputEntry
  | chunk (fileName code : String)
  | asset (fileName : String) (sourceStr : Option String)
  | other (tname : String)
  deriving DecidableEq

/-- The Analysis payload: per-scope component records and the output
virtual filesystem. -/
structure Analysis where
  components : List (String × StoredComponent)
  vfs : List (String × String)
  deriving DecidableEq

/-- The empty Analysis value returned on the short-circuit paths. -/
def emptyAnalysis : Analysis := ⟨[], []⟩

/-- The first line of a file as the code computes it: content.slice(0, i)
where i = content.indexOf newline. When there is no newline, indexOf is -1
and the JS slice(0, -1) drops the last character. -/
def jsFirstLineAux : List Char → List Char → Option (List Char × List Char)
  | [], _ => none
  | c :: cs, acc => if c = '\n' then some (acc.reverse, cs) else jsFirstLineAux cs (c :: acc)

/-- First line per the JS slice semantics above. -/
def jsFirstLine (content : String) : String :=
  match jsFirstLineAux content.toList [] with
  | some (l, _) => String.mk l
  | none => String.mk content.toList.dropLast

/-- Remainder after the first line: content.slice(i + 1). When there is no
newline, i + 1 = 0 and the slice is the whole content. -/
def jsAfterFirstLine (content : String) : String :=
  match jsFirstLineAux content.toList [] with
  | some (_, r) => String.mk r
  | none => content

/-- The marker regex match on a module snapshot first line:
firstLine.match of two slashes, a space and at least one further
character, capturing everything after the space. The first line never
contains a newline, so the any-character class is unrestricted here. -/
def parseMarker (line : String) : Option String :=
  let cs := line.toList
  if listStarts cs ['/', '/', ' '] && decide (0 < (cs.drop 3).length) then
    some (String.mk (cs.drop 3))
  else none

/-- The loop over the modules subdirectory (deploy.ts lines 296-310):
read each file, demand the marker first line, skip snapshots whose marker
path starts with node_modules/, and key the remaining content by the
marker path. -/
def processModules (fs : FS) (dir : String) :
    List String → List (String × String) → Except String (List (String × String))
  | [], vfs => .ok vfs
  | fname :: rest, vfs =>
    match fs.readFile (pathJoin dir fname) with
    | .error e => .error e
    | .ok content =>
      match parseMarker (jsFirstLine content) with
      | none => .error ("Malformed path for module: " ++ jsFirstLine content)
      | some rel =>
        if strStarts rel "node_modules/" then processModules fs dir rest vfs
        else processModules fs dir rest (alSet vfs rel (jsAfterFirstLine content))

/-- Accumulator of the descriptor loop (deploy.ts lines 313-330). -/
structure DescAcc where
  input : List (String × String)
  vfsForRollup : List (String × String)
  components : List (String × StoredComponent)
  hasAnalysis : Bool
  deriving DecidableEq

/-- The loop over the analysis directory listing: every name ending in
.json is read, parsed, registered as a rollup entry under its filename
stripped of its extension (JS slice(0, lastIndexOf dot), which drops the
last character when there is no dot), inserted into the virtual
filesystem under its filename, and stored by scope with moduleThunkRaw
cleared. -/
def jsCutExt (s : String) : String :=
  match lastIdxOf '.' s.toList with
  | some i => String.mk (s.toList.take i)
  | none => String.mk s.toList.dropLast

/-- The descriptor loop itself. A parse failure is the JSON.parse throw. -/
def processDescriptors (fs : FS) (parseJson : String → Option ComponentDesc)
    (dir : String) : List String → DescAcc → Except String DescAcc
  | [], acc => .ok acc
  | fname :: rest, acc =>
    if strEnds fname ".json" then
      match fs.readFile (pathJoin dir fname) with
      | .error e => .error e
      | .ok content =>
        match parseJson content with
        | none => .error ("SyntaxError: unexpected token in JSON while parsing " ++ fname)
        | some c =>
          let acc2 : DescAcc :=
            { input := alSet acc.input (jsCutExt c.filename) c.filename
              vfsForRollup := alSet acc.vfsForRollup c.filename c.moduleThunkRaw
              components := alSet acc.components c.scope ⟨c.scope, c.filename, none⟩
              hasAnalysis := true }
          processDescriptors fs parseJson dir rest acc2
    else processDescriptors fs parseJson dir rest acc

/-- What the collection phase hands to the bundling step: either the
no-descriptors short-circuit, or the entry map, virtual filesystem and
component records. -/
inductive Collected
  | noAnalysis
  | ready (input : List (String × String)) (vfsForRollup : List (String × String))
      (components : List (String × StoredComponent))
  deriving DecidableEq

/-- The module-snapshot stage (deploy.ts lines 293-311): when the
modules subdirectory exists, list it and fold processModules over it,
starting from an empty virtual filesystem. -/
def modulesPhase (fs : FS) (analysisDir : String) :
    Except String (List (String × String)) :=
  if fs.existsPath (pathJoin analysisDir "modules") then
    match fs.readdir (pathJoin analysisDir "modules") with
    | .error e => .error e
    | .ok depNames => processModules fs (pathJoin analysisDir "modules") depNames []
  else .ok []

/-- The part of bundleAnalysis before rollup is invoked (deploy.ts lines
286-336): list the analysis directory, process the modules subdirectory
when it exists (before the descriptor scan, as in the source), scan the
descriptors, and short-circuit when none had a .json name. -/
def collectPhase (fs : FS) (parseJson : String → Option ComponentDesc)
    (tmpDir : String) : Except String Collected :=
  match fs.readdir (pathJoin tmpDir "analysis") with
  | .error e => .error e
  | .ok names =>
    match modulesPhase fs (pathJoin tmpDir "analysis") with
    | .error e => .error e
    | .ok vfsM =>
      match processDescriptors fs parseJson (pathJoin tmpDir "analysis") names
          ⟨[], vfsM, [], false⟩ with
      | .error e => .error e
      | .ok acc =>
        if acc.hasAnalysis then .ok (.ready acc.input acc.vfsForRollup acc.components)
        else .ok .noAnalysis

/-- The walk over rollup output entries (deploy.ts lines 454-476):
chunks and string assets are copied into the output vfs keyed by file
name; a non-string asset and an unhandled entry type throw. -/
def collectOutput : List OutputEntry → List (String × String) →
    Except String (List (String × String))
  | [], vfs => .ok vfs
  | .chunk f c :: rest, vfs => collectOutput rest (alSet vfs f c)
  | .asset f (some s) :: rest, vfs => collectOutput rest (alSet vfs f s)
  | .asset f none :: _, _ =>
    .error ("Unable to bundle this project's analysis results due to a dependency of your component that is not currently serializable.\nFeel free to reach out to discuss, if you think this is a mistake or you want support!\n\nAsset: " ++ f)
  | .other t :: _, _ =>
    .error ("Unhandled rollup chunk entry type " ++ t ++ ". This is a bug with Outsmartly.")

/-- The body of the try block of bundleAnalysis: collect, bundle through
the engine oracle gen, and walk the output. Errors here carry the
original, specific messages. -/
def bundleAnalysisInner (fs : FS) (parseJson : String → Option ComponentDesc)
    (gen : List (String × String) → List (String × String) → Except String (List OutputEntry))
    (tmpDir : String) : Except String Analysis :=
  match collectPhase fs parseJson tmpDir with
  | .error e => .error e
  | .ok .noAnalysis => .ok emptyAnalysis
  | .ok (.ready input vfsR comps) =>
    match gen input vfsR with
    | .error e => .error e
    | .ok out =>
      match collectOutput out [] with
      | .error e => .error e
      | .ok vfs => .ok ⟨comps, vfs⟩

/-- bundleAnalysis (deploy.ts lines 280-482): the early return when tmpDir
does not exist, and otherwise the try/catch wrapper that prints the
original error to the console and throws the single generic error naming
tmpDir. The second component is the list of console.error payloads. -/
def bundleAnalysis (fs : FS) (parseJson : String → Option ComponentDesc)
    (gen : List (String × String) → List (String × String) → Except String (List OutputEntry))
    (tmpDir : String) : Except String Analysis × List String :=
  if fs.existsPath tmpDir then
    match bundleAnalysisInner fs parseJson gen tmpDir with
    | .ok a => (.ok a, [])
    | .error e => (.error ("Unexpected analysis results in " ++ tmpDir ++ "."), [e])
  else (.ok emptyAnalysis, [])

/-! ## Deploy orchestration (Deploy.run lines 234-262, Deploy.deploy
lines 484-632)

The watch handler increments pendingDeployCount and, while an attempt is
in flight (so the incremented counter exceeds 1), aborts the current
AbortController, replaces it with a fresh one and returns. Triggers can
only be delivered while the single JS thread is suspended at an await;
the suspension points of one attempt are the configuration bundling, the
analysis bundling, the upload call, and each manifest fetch/backoff sleep
of the polling loop. A schedule records how many watch triggers arrive at
each of those points, together with the attempt's deployment timestamp
and the sequence of manifest timestamps the remote would return. -/

/-- Watch triggers delivered at each suspension point of one attempt,
plus the remote timestamps that drive its polling loop. -/
structure Sched where
  duringBundling : Nat
  duringAssembling : Nat
  duringUpload : Nat
  duringFetch : List Nat
  deployTime : Int
  manifests : List Int
  deriving DecidableEq

/-- How one attempt finished. -/
inductive Outcome
  | guardAbortPreEval
  | guardAbortPrePoll
  | guardAbortPoll
  | abortError
  | success
  | outOfManifests
  deriving DecidableEq

/-- Result of the polling loop (deploy.ts lines 562-580), carrying the
final pendingDeployCount, the number of manifest fetches performed and
the backoff sleeps taken. outOfManifests marks a run that exhausted the
supplied manifest reads without confirming. -/
inductive PollResult
  | guardAbort (pending fetches : Nat) (sleeps : List Nat)
  | aborted (pending fetches : Nat) (sleeps : List Nat)
  | success (pending fetches : Nat) (sleeps : List Nat)
  | outOfManifests (pending fetches : Nat) (sleeps : List Nat)
  deriving DecidableEq

/-- The pendingDeployCount an attempt's polling loop ended with. -/
def PollResult.pendingOf : PollResult → Nat
  | .guardAbort p _ _ => p
  | .aborted p _ _ => p
  | .success p _ _ => p
  | .outOfManifests p _ _ => p

/-- The polling loop: each iteration first checks the
pendingDeployCount > 1 guard, then fetches a manifest (a trigger arriving
during the fetch or the following sleep aborts the shared controller and
the awaited call rejects with AbortError), confirms when
deployTime <= manifest timestamp, and otherwise sleeps
1000 * fetchManifestCount and retries. -/
def pollLoop (dt : Int) : List Int → List Nat → Nat → Nat → List Nat → PollResult
  | [], _, p, fc, sl =>
    if p > 1 then .guardAbort p fc sl else .outOfManifests p fc sl
  | m :: ms2, ts, p, fc, sl =>
    if p > 1 then .guardAbort p fc sl
    else if ts.headD 0 > 0 then .aborted (p + ts.headD 0) (fc + 1) sl
    else if dt ≤ m then .success p (fc + 1) sl
    else pollLoop dt ms2 ts.tail p (fc + 1) (sl ++ [1000 * (fc + 1)])

/-- What one run of Deploy.deploy did, observed at its completion (the
entry of the finally block at line 617). pendingAtUpload is the
pendingDeployCount at the moment patchSite was called, when it was. -/
structure AttemptResult where
  pending : Nat
  uploadCalled : Bool
  pendingAtUpload : Option Nat
  fetches : Nat
  sleeps : List Nat
  outcome : Outcome
  deriving DecidableEq

/-- One run of the body of Deploy.deploy (lines 491-616) from a given
pendingDeployCount, under a trigger schedule. The guard checks are at
line 499 (after the configuration bundling, before the synchronous
evaluation and the analysis bundling), at line 532 (after the upload,
before the polling loop) and at line 564 (each polling iteration). There
is no guard between the analysis bundling and the upload call; a trigger
during the analysis bundling has already swapped in a fresh
AbortController by the time patchSite reads it, so the upload proceeds. -/
def deployAttempt (p0 : Nat) (s : Sched) : AttemptResult :=
  -- after bundling the counter is p0 + duringBundling; the line-499 guard:
  if p0 + s.duringBundling > 1 then
    { pending := p0 + s.duringBundling, uploadCalled := false, pendingAtUpload := none,
      fetches := 0, sleeps := [], outcome := .guardAbortPreEval }
  -- evaluation is synchronous; assembling raises the counter by
  -- duringAssembling; patchSite is then called unconditionally, with the
  -- counter at p0 + duringBundling + duringAssembling:
  else if s.duringUpload > 0 then
    -- a trigger during the upload aborts the captured signal: AbortError
    { pending := p0 + s.duringBundling + s.duringAssembling + s.duringUpload,
      uploadCalled := true,
      pendingAtUpload := some (p0 + s.duringBundling + s.duringAssembling),
      fetches := 0, sleeps := [], outcome := .abortError }
  -- the line-532 guard, after the upload and before the polling loop:
  else if p0 + s.duringBundling + s.duringAssembling + s.duringUpload > 1 then
    { pending := p0 + s.duringBundling + s.duringAssembling + s.duringUpload,
      uploadCalled := true,
      pendingAtUpload := some (p0 + s.duringBundling + s.duringAssembling),
      fetches := 0, sleeps := [], outcome := .guardAbortPrePoll }
  else
    match pollLoop s.deployTime s.manifests s.duringFetch
        (p0 + s.duringBundling + s.duringAssembling + s.duringUpload) 0 [] with
    | .guardAbort p f sl =>
      { pending := p, uploadCalled := true,
        pendingAtUpload := some (p0 + s.duringBundling + s.duringAssembling),
        fetches := f, sleeps := sl, outcome := .guardAbortPoll }
    | .aborted p f sl =>
      { pending := p, uploadCalled := true,
        pendingAtUpload := some (p0 + s.duringBundling + s.duringAssembling),
        fetches := f, sleeps := sl, outcome := .abortError }
    | .success p f sl =>
      { pending := p, uploadCalled := true,
        pendingAtUpload := some (p0 + s.duringBundling + s.duringAssembling),
        fetches := f, sleeps := sl, outcome := .success }
    | .outOfManifests p f sl =>
      { pending := p, uploadCalled := true,
        pendingAtUpload := some (p0 + s.duringBundling + s.duringAssembling),
        fetches := f, sleeps := sl, outcome := .outOfManifests }

/-- The decision of the finally block (deploy.ts lines 622-630): with a
pending successor, reset the counter to 1 and re-invoke; otherwise reset
to 0 and stop. -/
def retryDecision (pending : Nat) : Nat × Bool :=
  if pending > 1 then (1, true) else (0, false)

/-- Total triggers a schedule would deliver if every suspension point
were reached. -/
def totalTriggers (s : Sched) : Nat :=
  s.duringBundling + s.duringAssembling + s.duringUpload + s.duringFetch.sum

/-- Repeated invocation of Deploy.deploy as driven by its finally block:
each attempt consumes the next schedule; when the finally block observes
pendingDeployCount > 1 it resets it to 1 and re-invokes deploy exactly
once, otherwise it resets it to 0 and stops. Returns the attempt trace
and the final pendingDeployCount (an empty schedule list with a pending
successor truncates the trace and reports the reset counter). -/
def deployLoop : List Sched → Nat → List AttemptResult × Nat
  | [], p => ([], p)
  | s :: rest, p =>
    let r := deployAttempt p s
    if (retryDecision r.pending).2 then
      let next := deployLoop rest (retryDecision r.pending).1
      (r :: next.1, next.2)
    else ([r], (retryDecision r.pending).1)

/-! ## Concrete instances used by individual claims -/

/-- A configuration default export carrying the host field, with the
empty string as its value. -/
def cexConfig : ConfigExport := ⟨some "", none⟩

/-- A NON_EXISTENT_EXPORT warning whose engine-supplied message mentions
neither its source nor its importer. -/
def cexWarning : RWarning :=
  ⟨some "NON_EXISTENT_EXPORT", "foo", none, none, none, none, none, none,
    some "SRC", some "IMP"⟩

/-- The virtual filesystem of the concrete resolution examples in the
claim. -/
def vfsExample : List (String × String) :=
  [("components/Foo.tsx", "x"), ("components/Bar/index.ts", "y")]

/-- The virtual filesystem distinguishing the implemented probe order
from the order the claim words. -/
def vfsMix : List (String × String) := [("a/index.js", "x"), ("a.tsx", "y")]

/-- An analysis layout with zero .json descriptors but a malformed module
snapshot. -/
def fsC7 : FS :=
  ⟨["t", "t/analysis", "t/analysis/modules"], [("t/analysis/modules/bad", "junk\nx")]⟩

/-- An analysis directory that exists and is empty. -/
def fsC7w : FS := ⟨["w", "w/analysis"], []⟩

/-- An analysis layout whose single module snapshot lacks the marker
first line. -/
def fsC8 : FS :=
  ⟨["u", "u/analysis", "u/analysis/modules"], [("u/analysis/modules/m", "nomarker\nx")]⟩

/-- The schedule delivering a single second trigger while the attempt is
suspended in the analysis bundling (Assembling). -/
def cexSched : Sched := ⟨0, 1, 0, [], 0, []⟩

/-! ## Shared helper lemmas -/

/-- handleRollupError exits exactly when called fatally, whatever it prints. -/
theorem handleRollupError_snd (rel : String → String) (e : RWarning) (f : Bool) :
    (handleRollupError rel e f).2 = f := rfl

/-! ## Claim C3 -/

/-- Claim C3: when the analysis directory — the tmpDir argument of
bundleAnalysis, the directory the spec contract passes to assemble —
does not exist, bundleAnalysis returns the empty Analysis with no error
and no console output, whatever the JSON parser, the bundling engine and
the rest of the filesystem do. -/
theorem bundleAnalysis_missing_dir_empty (fs : FS)
    (parseJson : String → Option ComponentDesc)
    (gen : List (String × String) → List (String × String) → Except String (List OutputEntry))
    (tmpDir : String) (h : fs.existsPath tmpDir = false) :
    bundleAnalysis fs parseJson gen tmpDir = (.ok emptyAnalysis, []) := by
  simp [bundleAnalysis, h]

/-- Witness for C3: a filesystem without the ./.outsmartly/ directory. -/
theorem bundleAnalysis_missing_dir_empty_witness :
    bundleAnalysis ⟨[], []⟩ (fun _ => none) (fun _ _ => .ok []) "./.outsmartly/"
      = (.ok emptyAnalysis, []) :=
  bundleAnalysis_missing_dir_empty ⟨[], []⟩ (fun _ => none) (fun _ _ => .ok [])
    "./.outsmartly/" rfl

/-! ## Claim C10 -/

/-- Claim C10: every error that escapes bundleAnalysis after the initial
tmpDir existence check is the single generic error naming tmpDir; the
original, specific error of the failing step is only passed to
console.error, never rethrown, so the caller cannot distinguish the
failure kinds. -/
theorem bundleAnalysis_generic_error (fs : FS)
    (parseJson : String → Option ComponentDesc)
    (gen : List (String × String) → List (String × String) → Except String (List OutputEntry))
    (tmpDir r : String) (log : List String)
    (h : bundleAnalysis fs parseJson gen tmpDir = (.error r, log)) :
    r = "Unexpected analysis results in " ++ tmpDir ++ "." ∧
      ∃ e, log = [e] ∧ bundleAnalysisInner fs parseJson gen tmpDir = .error e := by
  unfold bundleAnalysis at h
  by_cases hex : fs.existsPath tmpDir = true
  · rw [if_pos hex] at h
    cases hinner : bundleAnalysisInner fs parseJson gen tmpDir with
    | ok a => rw [hinner] at h; exact absurd h (by simp)
    | error e =>
      rw [hinner] at h
      injection h with h1 h2
      injection h1 with h3
      exact ⟨h3.symm, e, h2.symm, rfl⟩
  · rw [if_neg hex] at h
    exact absurd h (by simp)

/-- Witness for C10: a tmpDir that exists but has no analysis
subdirectory makes the assembly fail; the propagated message is the
generic one and the ENOENT error is only logged. -/
theorem bundleAnalysis_generic_error_witness :
    "Unexpected analysis results in t." = "Unexpected analysis results in " ++ "t" ++ "." ∧
      ∃ e, ["ENOENT: no such file or directory, scandir t/analysis"] = [e] ∧
        bundleAnalysisInner ⟨["t"], []⟩ (fun _ => none) (fun _ _ => .ok []) "t"
          = .error e :=
  bundleAnalysis_generic_error ⟨["t"], []⟩ (fun _ => none) (fun _ _ => .ok []) "t"
    "Unexpected analysis results in t."
    ["ENOENT: no such file or directory, scandir t/analysis"] rfl

/-! ## Claim C9 -/

/-- Counterexample to C9 as stated: this default export contains a host
field, yet evaluation fails with the missing-host error, because the
source tests the field with a JS falsy check rather than a presence
check. -/
theorem evaluateConfig_empty_host_counterexample :
    cexConfig.host = some "" ∧
      evaluateConfig cexConfig "outsmartly.config.js"
        = .error "Missing 'host' field in outsmartly.config.js" :=
  ⟨rfl, rfl⟩

/-- Claim C9 as amended: for a default export whose host field is a
non-empty string, evaluation yields exactly that host, with tmpDir
defaulting to ./.outsmartly/ when omitted and taken verbatim when
present; when host is absent the evaluation fails with the missing-host
error naming the originating config path. -/
theorem evaluateConfig_behavior :
    (∀ h p, h ≠ "" → evaluateConfig ⟨some h, none⟩ p = .ok (h, "./.outsmartly/")) ∧
      (∀ h t p, h ≠ "" → evaluateConfig ⟨some h, some t⟩ p = .ok (h, t)) ∧
      (∀ t p, evaluateConfig ⟨none, t⟩ p = .error ("Missing 'host' field in " ++ p)) := by
  refine ⟨fun h p hne => ?_, fun h t p hne => ?_, fun t p => ?_⟩
  · simp [evaluateConfig, hne]
  · simp [evaluateConfig, hne]
  · simp [evaluateConfig]

/-- Witness for C9: a concrete valid configuration export. -/
theorem evaluateConfig_behavior_witness :
    evaluateConfig ⟨some "example.com", none⟩ "outsmartly.config.ts"
      = .ok ("example.com", "./.outsmartly/") :=
  evaluateConfig_behavior.1 "example.com" "outsmartly.config.ts" (by decide)

/-! ## Claim C6 -/

/-- Counterexample to C6 as stated: a non-existent-export warning is
escalated to a fatal error, but its message is passed through unannotated
— the terminal output identifies neither the source nor the importer of
the warning, contradicting the claim that both escalated kinds carry an
annotated message identifying them. -/
theorem onwarn_nonexistent_export_counterexample :
    cexWarning.source = some "SRC" ∧ cexWarning.importer = some "IMP" ∧
      onwarn (fun s => s) cexWarning = (["[!] foo", ""], true) ∧
      containsSub "[!] foo" "SRC" = false ∧ containsSub "[!] foo" "IMP" = false :=
  ⟨rfl, rfl, rfl, rfl, rfl⟩

/-- Claim C6 as amended: dependency-cycle and loose-this warnings are
suppressed entirely (no exit, no terminal output); unresolved-import
warnings are escalated fatally with a rewritten message carrying the
unresolved source and the importer path verbatim; non-existent-export
warnings are escalated fatally with their original, unannotated message;
every other warning is logged non-fatally with its message prefixed as a
bundler warning. -/
theorem onwarn_triage (rel : String → String) (w : RWarning) :
    ((w.code = some "CIRCULAR_DEPENDENCY" ∨ w.code = some "THIS_IS_UNDEFINED") →
        onwarn rel w = ([], false)) ∧
      (w.code = some "UNRESOLVED_IMPORT" →
        onwarnTriage w = .fatalW ({ w with message := unresolvedMessage w }) ∧
          unresolvedMessage w = "'" ++ jsStr w.source ++ "' is imported by " ++
            jsStr w.importer ++ ", but could not be resolved" ∧
          (onwarn rel w).2 = true) ∧
      (w.code = some "NON_EXISTENT_EXPORT" →
        onwarnTriage w = .fatalW w ∧ (onwarn rel w).2 = true) ∧
      (w.code ≠ some "CIRCULAR_DEPENDENCY" → w.code ≠ some "THIS_IS_UNDEFINED" →
        w.code ≠ some "NON_EXISTENT_EXPORT" → w.code ≠ some "UNRESOLVED_IMPORT" →
        onwarnTriage w = .logW ({ w with message := bundlerWarningMessage w }) ∧
          (onwarn rel w).2 = false) := by
  refine ⟨fun hc => ?_, fun hc => ?_, fun hc => ?_, fun h1 h2 h3 h4 => ?_⟩
  · rcases hc with hc | hc <;> simp [onwarn, onwarnTriage, hc]
  · have ht : onwarnTriage w = .fatalW ({ w with message := unresolvedMessage w }) := by
      simp [onwarnTriage, hc]
    exact ⟨ht, rfl, by rw [onwarn, ht]; rfl⟩
  · have ht : onwarnTriage w = .fatalW w := by simp [onwarnTriage, hc]
    exact ⟨ht, by rw [onwarn, ht]; rfl⟩
  · have ht : onwarnTriage w = .logW ({ w with message := bundlerWarningMessage w }) := by
      simp [onwarnTriage, h1, h2, h3, h4]
    exact ⟨ht, by rw [onwarn, ht]; rfl⟩

/-- Witness for C6: a concrete dependency-cycle warning is fully
suppressed. -/
theorem onwarn_triage_witness :
    onwarn (fun s => s)
      ⟨some "CIRCULAR_DEPENDENCY", "m", none, none, none, none, none, none, none, none⟩
      = ([], false) :=
  (onwarn_triage (fun s => s)
    ⟨some "CIRCULAR_DEPENDENCY", "m", none, none, none, none, none, none, none, none⟩).1
    (Or.inl rfl)

/-! ## Claim C5 -/

/-- Helper: a polling run over unsatisfying reads followed by a
satisfying one, from arbitrary fetch-count and sleep accumulators. -/
theorem pollLoop_success_general (dt m : Int) (rest : List Int) (pre : List Int) :
    ∀ (fc : Nat) (sl : List Nat), (∀ x ∈ pre, x < dt) → dt ≤ m →
      pollLoop dt (pre ++ m :: rest) [] 1 fc sl =
        .success 1 (fc + pre.length + 1)
          (sl ++ (List.range pre.length).map (fun i => 1000 * (fc + i + 1))) := by
  induction pre with
  | nil =>
    intro fc sl _ hm
    simp [pollLoop, hm]
  | cons x pre ih =>
    intro fc sl hpre hm
    have hx : ¬ dt ≤ x := not_le.mpr (hpre x (List.mem_cons_self x pre))
    have hpre2 : ∀ y ∈ pre, y < dt := fun y hy => hpre y (List.mem_cons_of_mem x hy)
    rw [List.cons_append, pollLoop]
    simp only [gt_iff_lt, lt_irrefl, if_false, List.headD_nil, List.tail_nil]
    rw [if_neg hx]
    rw [ih (fc + 1) (sl ++ [1000 * (fc + 1)]) hpre2 hm]
    have hfc : fc + 1 + pre.length + 1 = fc + (x :: pre).length + 1 := by
      simp; omega
    have hfun : ((fun i => 1000 * (fc + i + 1)) ∘ Nat.succ)
        = (fun i => 1000 * (fc + 1 + i + 1)) := by
      funext i
      simp only [Function.comp]
      omega
    have hsl : (sl ++ [1000 * (fc + 1)]) ++
          (List.range pre.length).map (fun i => 1000 * (fc + 1 + i + 1))
        = sl ++ (List.range (x :: pre).length).map (fun i => 1000 * (fc + i + 1)) := by
      rw [List.length_cons, List.range_succ_eq_map, List.map_cons, List.map_map, hfun,
        List.append_assoc, List.singleton_append]
    rw [hfc, hsl]

/-- Claim C5: the propagation poller confirms exactly when a fetched
manifest timestamp satisfies deployTime <= timestamp (greater-or-equal on
the manifest side, not equality), sleeping 1000 * attempt after each
unsatisfied fetch; in particular with deployment time T and manifest
reads T-1, T-1, T it performs exactly 3 fetches, sleeping 1000 then 2000,
and returns successfully after the third. -/
theorem pollLoop_propagation :
    (∀ (dt m : Int) (pre rest : List Int), (∀ x ∈ pre, x < dt) → dt ≤ m →
        pollLoop dt (pre ++ m :: rest) [] 1 0 [] =
          .success 1 (pre.length + 1)
            ((List.range pre.length).map (fun i => 1000 * (i + 1)))) ∧
      pollLoop 100 [99, 99, 100] [] 1 0 [] = .success 1 3 [1000, 2000] := by
  constructor
  · intro dt m pre rest hpre hm
    have h := pollLoop_success_general dt m rest pre 0 [] hpre hm
    simpa using h
  · decide

/-- Witness for C5: the general propagation law applied to the concrete
T-1, T-1, T schedule of the claim. -/
theorem pollLoop_propagation_witness :
    pollLoop 100 ([99, 99] ++ 100 :: []) [] 1 0 [] =
      .success 1 (([99, 99] : List Int).length + 1)
        ((List.range ([99, 99] : List Int).length).map (fun i => 1000 * (i + 1))) :=
  pollLoop_propagation.1 100 100 [99, 99] [] (by decide) (by decide)

/-! ## Claim C4 -/

/-- Helper: the extension loop of resolveId performs exactly the
interleaved, per-extension probe search — for each extension in order,
the bare path, then index, then the specifier basename. -/
theorem resolveLoop_eq_find (vfs : List (String × String)) (resolved name : String) :
    ∀ exts : List String,
      resolveLoop vfs resolved name exts
        = (exts.flatMap (probeTriple resolved name)).find? (fun q => alHas vfs q) := by
  intro exts
  induction exts with
  | nil => rfl
  | cons e rest ih =>
    by_cases h1 : alHas vfs (resolved ++ e)
    · simp [resolveLoop, probeTriple, h1, List.flatMap_cons]
    · by_cases h2 : alHas vfs (pathJoin resolved ("index" ++ e))
      · simp [resolveLoop, probeTriple, h1, h2, List.flatMap_cons]
      · by_cases h3 : alHas vfs (pathJoin resolved (name ++ e))
        · simp [resolveLoop, probeTriple, h1, h2, h3, List.flatMap_cons]
        · simp [resolveLoop, probeTriple, h1, h2, h3, List.flatMap_cons, ih]

/-- Counterexample to C4 as stated: against a vfs holding both a/index.js
and a.tsx, an import of ./a resolves to a/index.js — the loop probes
index resolution for the first extension before trying the bare path with
later extensions — while the priority order the claim states (all bare
paths with every extension before any index probe) would pick a.tsx, as
the spec-worded resolver shows. -/
theorem resolveId_probe_order_counterexample :
    resolveId "/p" vfsMix "./a" (some "entry.js") = some "a/index.js" ∧
      specResolveId "/p" vfsMix "./a" (some "entry.js") = some "a.tsx" ∧
      resolveId "/p" vfsMix "./a" (some "entry.js")
        ≠ specResolveId "/p" vfsMix "./a" (some "entry.js") :=
  ⟨rfl, rfl, by decide⟩

/-- Claim C4 as amended: resolution consults only the virtual filesystem
— an exact key match on the specifier first; then, for a relative or
absolute specifier with an importer, the importer-resolved path followed
by the per-extension probe sequence (for each supported extension in
order: bare path + ext, then path/index.ext, then path/basename.ext);
with no importer or a bare specifier the hook yields none and the engine
falls back to its remaining (real filesystem) resolution. The claim's
concrete examples hold: ./Foo resolves to components/Foo.tsx and ./Bar to
components/Bar/index.ts. -/
theorem resolveId_vfs_resolution :
    (∀ cwd vfs id imp, alHas vfs id = true → resolveId cwd vfs id imp = some id) ∧
      (∀ cwd vfs id imp, alHas vfs id = false → startsDotOrSlash id = true →
        resolveId cwd vfs id (some imp) =
          (resolveImport cwd imp id ::
            SUPPORTED_EXTENSIONS.flatMap
              (probeTriple (resolveImport cwd imp id) (parseName id))).find?
            (fun q => alHas vfs q)) ∧
      (∀ cwd vfs id, resolveId cwd vfs id none
        = if alHas vfs id then some id else none) ∧
      resolveId "/p" vfsExample "./Foo" (some "components/Entry.tsx")
        = some "components/Foo.tsx" ∧
      resolveId "/p" vfsExample "./Bar" (some "components/Entry.tsx")
        = some "components/Bar/index.ts" := by
  refine ⟨fun cwd vfs id imp h => ?_, fun cwd vfs id imp h hd => ?_,
    fun cwd vfs id => ?_, rfl, rfl⟩
  · simp [resolveId, h]
  · rw [List.find?_cons]
    by_cases hr : alHas vfs (resolveImport cwd imp id)
    · simp [resolveId, h, hd, hr]
    · simp [resolveId, h, hd, hr, resolveLoop_eq_find]
  · by_cases h : alHas vfs id <;> simp [resolveId, h]

/-- Witness for C4: a specifier that is an exact vfs key resolves to
itself. -/
theorem resolveId_vfs_resolution_witness :
    resolveId "/p" [("a.js", "s")] "a.js" none = some "a.js" :=
  resolveId_vfs_resolution.1 "/p" [("a.js", "s")] "a.js" none rfl

/-! ## Claims C7 and C8: helper lemmas about the assembly stages -/

/-- Mapping an overwriting assignment over an association list never
changes any key. -/
theorem anyKeyMap {α : Type} (k : String) (v : α) (p : String → Bool) :
    ∀ l : List (String × α),
      (l.map (fun kv => if kv.1 = k then (k, v) else kv)).any (fun kv => p kv.1)
        = l.any (fun kv => p kv.1) := by
  intro l
  induction l with
  | nil => rfl
  | cons kv rest ih =>
    by_cases hk : kv.1 = k
    · simp [hk, ih]
    · simp [hk, ih]

/-- Assignment of one key leaves membership of every other key alone. -/
theorem alHas_alSet_ne {α : Type} (l : List (String × α)) (k : String) (v : α)
    (k' : String) (hne : k' ≠ k) : alHas (alSet l k v) k' = alHas l k' := by
  unfold alSet
  by_cases h : alHas l k
  · rw [if_pos h]
    exact anyKeyMap k v (fun x => decide (x = k')) l
  · rw [if_neg h]
    simp [alHas, Ne.symm hne]

/-- The descriptor loop ignores every name not ending in .json. -/
theorem processDescriptors_skip (fs : FS) (parseJson : String → Option ComponentDesc)
    (dir : String) :
    ∀ (names : List String) (acc : DescAcc),
      (∀ n ∈ names, strEnds n ".json" = false) →
      processDescriptors fs parseJson dir names acc = .ok acc := by
  intro names
  induction names with
  | nil => intro acc _; rfl
  | cons n rest ih =>
    intro acc hnj
    have hn : strEnds n ".json" = false := hnj n (List.mem_cons_self n rest)
    unfold processDescriptors
    rw [hn]
    exact ih acc (fun m hm => hnj m (List.mem_cons_of_mem n hm))

/-- A malformed module snapshot anywhere in the listing makes the module
stage fail (with whatever error the loop hits first). -/
theorem processModules_malformed (fs : FS) (dir : String) :
    ∀ (names : List String) (vfs : List (String × String)),
      (∃ n ∈ names, ∃ c, fs.readFile (pathJoin dir n) = .ok c ∧
        parseMarker (jsFirstLine c) = none) →
      ∃ e, processModules fs dir names vfs = .error e := by
  intro names
  induction names with
  | nil => intro vfs h; exact absurd h.choose_spec.1 (List.not_mem_nil _)
  | cons n rest ih =>
    intro vfs h
    unfold processModules
    split
    next e heq => exact ⟨e, rfl⟩
    next c heq =>
      split
      next hm => exact ⟨"Malformed path for module: " ++ jsFirstLine c, rfl⟩
      next rel hm =>
        have hrest : ∃ m ∈ rest, ∃ c2, fs.readFile (pathJoin dir m) = .ok c2 ∧
            parseMarker (jsFirstLine c2) = none := by
          obtain ⟨m, hmem, c2, hread, hbad⟩ := h
          rcases List.mem_cons.mp hmem with heq2 | hmem2
          · subst heq2
            rw [heq] at hread
            injection hread with hcc
            rw [← hcc] at hbad
            rw [hm] at hbad
            cases hbad
          · exact ⟨m, hmem2, c2, hread, hbad⟩
        by_cases hnm : strStarts rel "node_modules/"
        · rw [if_pos hnm]
          exact ih vfs hrest
        · rw [if_neg hnm]
          exact ih _ hrest

/-- The module stage never inserts a key under node_modules/. -/
theorem processModules_no_node_modules (fs : FS) (dir : String) :
    ∀ (names : List String) (vfs out : List (String × String)),
      processModules fs dir names vfs = .ok out →
      ∀ k, strStarts k "node_modules/" = true → alHas vfs k = false →
        alHas out k = false := by
  intro names
  induction names with
  | nil =>
    intro vfs out h k _ hv
    injection h with h2
    exact h2 ▸ hv
  | cons n rest ih =>
    intro vfs out h k hk hv
    unfold processModules at h
    split at h
    next e heq => cases h
    next c heq =>
      split at h
      next hm => cases h
      next rel hm =>
        by_cases hnm : strStarts rel "node_modules/"
        · rw [if_pos hnm] at h
          exact ih vfs out h k hk hv
        · rw [if_neg hnm] at h
          refine ih _ out h k hk ?_
          have hne : k ≠ rel := fun heq2 => hnm (heq2 ▸ hk)
          rw [alHas_alSet_ne vfs rel (jsAfterFirstLine c) k hne]
          exact hv

/-! ## Claim C7 -/

/-- Counterexample to C7 as stated: this analysis directory exists and
contains zero .json component descriptors, yet assembly does not return
the empty Analysis — the modules subdirectory is processed before the
descriptor scan and its malformed header aborts the assembly with the
generic error. -/
theorem assemble_zero_descriptors_counterexample :
    fsC7.existsPath (pathJoin "t" "analysis") = true ∧
      fsC7.readdir (pathJoin "t" "analysis") = .ok ["modules"] ∧
      strEnds "modules" ".json" = false ∧
      bundleAnalysis fsC7 (fun _ => none) (fun _ _ => .ok []) "t"
        = (.error "Unexpected analysis results in t.",
            ["Malformed path for module: junk"]) :=
  ⟨rfl, rfl, rfl, rfl⟩

/-- Claim C7 as amended: when the analysis directory exists, its listing
has no name ending in .json, and the collection phase raises no error
(in particular the modules subdirectory is well formed), assembly returns
the empty Analysis without invoking the bundling engine — the result is
the same for every engine oracle. -/
theorem assemble_zero_descriptors_empty (fs : FS)
    (parseJson : String → Option ComponentDesc) (tmpDir : String)
    (names : List String) (col : Collected)
    (hex : fs.existsPath tmpDir = true)
    (hrd : fs.readdir (pathJoin tmpDir "analysis") = .ok names)
    (hnj : ∀ n ∈ names, strEnds n ".json" = false)
    (hcol : collectPhase fs parseJson tmpDir = .ok col) :
    col = .noAnalysis ∧
      ∀ gen, bundleAnalysis fs parseJson gen tmpDir = (.ok emptyAnalysis, []) := by
  have hskip := processDescriptors_skip fs parseJson (pathJoin tmpDir "analysis")
  cases hv : modulesPhase fs (pathJoin tmpDir "analysis") with
  | error e =>
    exfalso
    simp only [collectPhase, hrd, hv] at hcol
    exact Except.noConfusion hcol
  | ok vfsM =>
    have hcolEq : collectPhase fs parseJson tmpDir = .ok Collected.noAnalysis := by
      simp [collectPhase, hrd, hv, hskip names ⟨[], vfsM, [], false⟩ hnj]
    have hc : col = Collected.noAnalysis := by
      rw [hcolEq] at hcol
      injection hcol with h2
      exact h2.symm
    refine ⟨hc, fun gen => ?_⟩
    have hinner : bundleAnalysisInner fs parseJson gen tmpDir = .ok emptyAnalysis := by
      unfold bundleAnalysisInner
      rw [hcolEq]
    unfold bundleAnalysis
    rw [if_pos hex, hinner]

/-- Witness for C7 (amended): an existing, empty analysis directory
assembles to the empty Analysis. -/
theorem assemble_zero_descriptors_empty_witness :
    bundleAnalysis fsC7w (fun _ => none) (fun _ _ => .ok []) "w"
      = (.ok emptyAnalysis, []) :=
  (assemble_zero_descriptors_empty fsC7w (fun _ => none) "w" [] .noAnalysis rfl rfl
    (fun n hn => absurd hn (List.not_mem_nil n)) rfl).2 (fun _ _ => .ok [])

/-! ## Claim C8 -/

/-- Claim C8: a module snapshot whose first line is not a marker comment
makes the whole assembly fail — the malformed-header error is raised by
the module stage and aborts assembly before any Analysis is produced, so
no partial virtual filesystem escapes (the error result carries no vfs;
per C10 the propagated message is the generic wrapper, with the specific
malformed-header message only logged). Moreover the module stage never
inserts a virtual-filesystem key under node_modules/: snapshots marked
node_modules/ are skipped, not vendored. -/
theorem malformed_module_header :
    (∀ (fs : FS) (parseJson : String → Option ComponentDesc)
        (gen : List (String × String) → List (String × String) →
          Except String (List OutputEntry))
        (tmpDir : String) (names depNames : List String),
      fs.existsPath tmpDir = true →
      fs.readdir (pathJoin tmpDir "analysis") = .ok names →
      fs.existsPath (pathJoin (pathJoin tmpDir "analysis") "modules") = true →
      fs.readdir (pathJoin (pathJoin tmpDir "analysis") "modules") = .ok depNames →
      (∃ n ∈ depNames, ∃ c,
        fs.readFile (pathJoin (pathJoin (pathJoin tmpDir "analysis") "modules") n)
          = .ok c ∧ parseMarker (jsFirstLine c) = none) →
      ∃ e, bundleAnalysis fs parseJson gen tmpDir
        = (.error ("Unexpected analysis results in " ++ tmpDir ++ "."), [e])) ∧
      (∀ (fs : FS) (dir : String) (names : List String)
          (out : List (String × String)),
        processModules fs dir names [] = .ok out →
        ∀ k, strStarts k "node_modules/" = true → alHas out k = false) := by
  constructor
  · intro fs parseJson gen tmpDir names depNames hex hrd hdep hrdd hbad
    obtain ⟨e, he⟩ := processModules_malformed fs
      (pathJoin (pathJoin tmpDir "analysis") "modules") depNames [] hbad
    have hmod : modulesPhase fs (pathJoin tmpDir "analysis") = .error e := by
      unfold modulesPhase
      rw [if_pos hdep, hrdd]
      exact he
    have hcol : collectPhase fs parseJson tmpDir = .error e := by
      unfold collectPhase
      rw [hrd, hmod]
    have hinner : bundleAnalysisInner fs parseJson gen tmpDir = .error e := by
      unfold bundleAnalysisInner
      rw [hcol]
    refine ⟨e, ?_⟩
    unfold bundleAnalysis
    rw [if_pos hex, hinner]
  · intro fs dir names out h k hk
    exact processModules_no_node_modules fs dir names [] out h k hk rfl

/-- Witness for C8: the malformed snapshot makes assembly fail with the
wrapped error. -/
theorem malformed_module_header_witness :
    ∃ e, bundleAnalysis fsC8 (fun _ => none) (fun _ _ => .ok []) "u"
      = (.error ("Unexpected analysis results in " ++ "u" ++ "."), [e]) :=
  malformed_module_header.1 fsC8 (fun _ => none) (fun _ _ => .ok []) "u"
    ["modules"] ["m"] rfl rfl rfl rfl ⟨"m", by decide, "nomarker\nx", rfl, rfl⟩

/-! ## Claim C1 -/

/-- Counterexample to C1 as stated: with a second watch trigger arriving
during Assembling, the attempt still makes its upload call — the counter
is already 2 when patchSite is invoked — and only the guard after the
upload aborts it. No guard discards the attempt between the analysis
bundling and the upload, so a trigger during Assembling is not discarded
before the externally visible side effect. -/
theorem deploy_guard_counterexample :
    cexSched.duringAssembling = 1 ∧
      (deployAttempt 1 cexSched).uploadCalled = true ∧
      (deployAttempt 1 cexSched).pendingAtUpload = some 2 ∧
      (deployAttempt 1 cexSched).outcome = .guardAbortPrePoll := by
  decide

/-- Claim C1 as amended: the guards sit after Bundling (before Evaluating
and Assembling), after Uploading (before the polling loop begins) and at
the top of every polling iteration. Hence a second trigger that has
arrived by the end of Bundling is always discarded before the upload call
is made; a second trigger arriving during Assembling does not prevent the
upload — the attempt is aborted only afterwards, before any manifest
fetch; and a polling iteration entered with a pending successor aborts
before fetching. -/
theorem deploy_guard_positions :
    (∀ (p : Nat) (s : Sched), 1 ≤ p → 1 ≤ s.duringBundling →
      (deployAttempt p s).uploadCalled = false ∧
        (deployAttempt p s).outcome = .guardAbortPreEval) ∧
      (∀ s : Sched, s.duringBundling = 0 → 1 ≤ s.duringAssembling →
        (deployAttempt 1 s).uploadCalled = true ∧ (deployAttempt 1 s).fetches = 0) ∧
      (∀ (dt : Int) (ms : List Int) (ts : List Nat) (p fc : Nat) (sl : List Nat),
        p > 1 → pollLoop dt ms ts p fc sl = .guardAbort p fc sl) := by
  refine ⟨fun p s hp hb => ?_, fun s hb ha => ?_, fun dt ms ts p fc sl hp => ?_⟩
  · have h1 : p + s.duringBundling > 1 := by omega
    constructor <;> simp [deployAttempt, h1]
  · have h1 : ¬ 1 + s.duringBundling > 1 := by omega
    by_cases hu : s.duringUpload > 0
    · constructor <;> simp [deployAttempt, h1, hu]
    · have h3 : 1 + s.duringBundling + s.duringAssembling + s.duringUpload > 1 := by
        omega
      constructor <;> simp [deployAttempt, h1, hu, h3]
  · cases ms <;> simp [pollLoop, hp]

/-- Witness for C1 (amended): a trigger during Bundling makes the attempt
abort at the line-499 guard with no upload. -/
theorem deploy_guard_positions_witness :
    (deployAttempt 1 ⟨1, 0, 0, [], 0, []⟩).uploadCalled = false ∧
      (deployAttempt 1 ⟨1, 0, 0, [], 0, []⟩).outcome = .guardAbortPreEval :=
  deploy_guard_positions.1 1 ⟨1, 0, 0, [], 0, []⟩ (by decide) (by decide)

/-! ## Claim C2 -/

/-- Helper: with no triggers delivered during polling, the loop returns
whatever counter it was entered with, whichever way it exits. -/
theorem pollLoop_quiet (dt : Int) :
    ∀ (ms : List Int) (ts : List Nat) (p fc : Nat) (sl : List Nat), ts.sum = 0 →
      (pollLoop dt ms ts p fc sl).pendingOf = p := by
  intro ms
  induction ms with
  | nil =>
    intro ts p fc sl _
    by_cases hp : p > 1 <;> simp [pollLoop, hp, PollResult.pendingOf]
  | cons m ms ih =>
    intro ts p fc sl hts
    have ht : ts.headD 0 = 0 := by
      cases ts with
      | nil => rfl
      | cons t ts2 => simp only [List.sum_cons] at hts; simp [List.headD]; omega
    have htail : ts.tail.sum = 0 := by
      cases ts with
      | nil => rfl
      | cons t ts2 => simp only [List.sum_cons] at hts; simp [List.tail]; omega
    by_cases hp : p > 1
    · simp [pollLoop, hp, PollResult.pendingOf]
    · rw [pollLoop, if_neg hp, ht]
      rw [if_neg (by omega : ¬ (0 : Nat) > 0)]
      by_cases hdm : dt ≤ m
      · rw [if_pos hdm]; rfl
      · rw [if_neg hdm]
        exact ih ts.tail p (fc + 1) (sl ++ [1000 * (fc + 1)]) htail

/-- Helper: an attempt during which no trigger arrives completes with the
counter it started with. -/
theorem deployAttempt_quiet (p : Nat) (s : Sched) (h : totalTriggers s = 0) :
    (deployAttempt p s).pending = p := by
  have hB : s.duringBundling = 0 := by unfold totalTriggers at h; omega
  have hA : s.duringAssembling = 0 := by unfold totalTriggers at h; omega
  have hU : s.duringUpload = 0 := by unfold totalTriggers at h; omega
  have hF : s.duringFetch.sum = 0 := by unfold totalTriggers at h; omega
  unfold deployAttempt
  by_cases hp : p + s.duringBundling > 1
  · rw [if_pos hp]
    simp [hB]
  · rw [if_neg hp, if_neg (by omega : ¬ s.duringUpload > 0),
      if_neg (by omega : ¬ p + s.duringBundling + s.duringAssembling + s.duringUpload > 1)]
    have hq := pollLoop_quiet s.deployTime s.manifests s.duringFetch
      (p + s.duringBundling + s.duringAssembling + s.duringUpload) 0 [] hF
    cases hpoll : pollLoop s.deployTime s.manifests s.duringFetch
        (p + s.duringBundling + s.duringAssembling + s.duringUpload) 0 [] with
    | guardAbort q f sl =>
      rw [hpoll] at hq
      simp only [PollResult.pendingOf] at hq
      simpa [hq] using (by omega : p + s.duringBundling + s.duringAssembling +
        s.duringUpload = p)
    | aborted q f sl =>
      rw [hpoll] at hq
      simp only [PollResult.pendingOf] at hq
      simpa [hq] using (by omega : p + s.duringBundling + s.duringAssembling +
        s.duringUpload = p)
    | success q f sl =>
      rw [hpoll] at hq
      simp only [PollResult.pendingOf] at hq
      simpa [hq] using (by omega : p + s.duringBundling + s.duringAssembling +
        s.duringUpload = p)
    | outOfManifests q f sl =>
      rw [hpoll] at hq
      simp only [PollResult.pendingOf] at hq
      simpa [hq] using (by omega : p + s.duringBundling + s.duringAssembling +
        s.duringUpload = p)

/-- Claim C2: the finally block resets a counter above 1 to exactly 1 and
re-invokes the orchestrator exactly once, and resets it to 0 otherwise;
consequently, when at least one second trigger arrives during an
in-flight attempt (at whichever of its suspension points, and however
many triggers arrive), the run consists of exactly two attempts — the
superseded one and a single full follow-up — and the counter ends at 0,
the follow-up attempt itself completing with counter 1. -/
theorem single_flight_retry (s s2 : Sched)
    (h1 : 1 ≤ s.duringBundling + s.duringAssembling + s.duringUpload)
    (h2 : totalTriggers s2 = 0) :
    (∀ p, 2 ≤ p → retryDecision p = (1, true)) ∧
      (∀ p, p ≤ 1 → retryDecision p = (0, false)) ∧
      2 ≤ (deployAttempt 1 s).pending ∧
      deployLoop [s, s2] 1 = ([deployAttempt 1 s, deployAttempt 1 s2], 0) ∧
      (deployAttempt 1 s2).pending = 1 := by
  have hq2 : (deployAttempt 1 s2).pending = 1 := deployAttempt_quiet 1 s2 h2
  have hpend : 2 ≤ (deployAttempt 1 s).pending := by
    unfold deployAttempt
    by_cases hB : 1 + s.duringBundling > 1
    · rw [if_pos hB]; simpa using (by omega : 2 ≤ 1 + s.duringBundling)
    · by_cases hU : s.duringUpload > 0
      · rw [if_neg hB, if_pos hU]
        simpa using (by omega :
          2 ≤ 1 + s.duringBundling + s.duringAssembling + s.duringUpload)
      · have h3 : 1 + s.duringBundling + s.duringAssembling + s.duringUpload > 1 := by
          omega
        rw [if_neg hB, if_neg hU, if_pos h3]
        simpa using (by omega :
          2 ≤ 1 + s.duringBundling + s.duringAssembling + s.duringUpload)
  have hrd1 : retryDecision (deployAttempt 1 s).pending = (1, true) := by
    unfold retryDecision
    rw [if_pos (by omega : (deployAttempt 1 s).pending > 1)]
  have hrd2 : retryDecision (deployAttempt 1 s2).pending = (0, false) := by
    unfold retryDecision
    rw [hq2]
    decide
  refine ⟨fun p hp => by unfold retryDecision; rw [if_pos (by omega : p > 1)],
    fun p hp => by unfold retryDecision; rw [if_neg (by omega : ¬ p > 1)],
    hpend, ?_, hq2⟩
  simp [deployLoop, hrd1, hrd2]

/-- Witness for C2: one trigger during Assembling yields exactly one
follow-up attempt and a final counter of 0. -/
theorem single_flight_retry_witness :
    deployLoop [⟨0, 1, 0, [], 100, [100]⟩, ⟨0, 0, 0, [], 100, [100]⟩] 1
      = ([deployAttempt 1 ⟨0, 1, 0, [], 100, [100]⟩,
          deployAttempt 1 ⟨0, 0, 0, [], 100, [100]⟩], 0) :=
  (single_flight_retry ⟨0, 1, 0, [], 100, [100]⟩ ⟨0, 0, 0, [], 100, [100]⟩
    (by decide) (by decide)).2.2.2.1

end DeployCmd
